import Mathlib

/-!
Verification development for the trace-agent core: a shallow embedding of
the span normalizer (`model` package), the single-slot reservoir and the
stratified reservoir (`sampler/reservoir/reservoir.go`), the flush
scheduler walk (`sampler/reservoir/flusher.go`), and the sublayer
computation (modelled from the specification, since its implementation is
not part of the source tree; only its tests are).

Modelling conventions:
* Go strings are modelled as `List Char` (`Str`); Go `len` is list length.
  The Go code manipulates bytes, the model characters; on the ASCII data
  all claims are about, the two coincide.
* Go `uint64` counters are modelled as `Nat`.  Wrap-around on overflow and
  the wrap of `uint64` subtraction are not modelled: no quantity in the
  claims comes anywhere near `2^64`, and the one subtraction
  (`StratifiedReservoir.Remove`) never underflows in the modelled flows
  (`Nat` truncated subtraction is used there).
* Go `int64` values (timestamps, durations) are modelled as `Int`.
* Go maps are modelled as association lists with unique keys; map
  assignment is update-or-append, `delete` is key removal.
* Go `float64` metric values are modelled as `Nat`: every value the
  modelled code stores is a small non-negative integer
  (`uint64` counts and their integer quotients), exactly representable.
* Pointer mutation is modelled by value passing: functions return the
  updated state.  Callbacks (`onDropCb`, `HandleNewSignature`) are
  modelled as state accumulation (a dropped-trace list, a bucket list).
-/

namespace TraceAgent

abbrev Str := List Char

/-- Shorthand to build a `Str` from a string literal. -/
def str (s : String) : Str := s.data

/-- Association-list lookup (Go map read `m[k]`). -/
def lookupA {α β : Type} [DecidableEq α] : List (α × β) → α → Option β
  | [], _ => none
  | (k', v) :: rest, k => if k' = k then some v else lookupA rest k

/-- Association-list update (Go map write `m[k] = v`): replace the unique
binding if present, else append. -/
def setA {α β : Type} [DecidableEq α] : List (α × β) → α → β → List (α × β)
  | [], k, v => [(k, v)]
  | (k', v') :: rest, k, v =>
    if k' = k then (k, v) :: rest else (k', v') :: setA rest k v

/-- Association-list removal (Go `delete(m, k)`). -/
def eraseA {α β : Type} [DecidableEq α] : List (α × β) → α → List (α × β)
  | [], _ => []
  | (k', v') :: rest, k =>
    if k' = k then eraseA rest k else (k', v') :: eraseA rest k

/-- A sublayer tag (`model.Tag`): a key/value pair. -/
structure Tag where
  name : Str
  value : Str
deriving DecidableEq, Repr

/-- Modelled from the spec: `Tag.String()` renders as `key:value` (the
`<tag_key>:<tag_value>` form of section 4.C); the `model` package source
of `Tag` is not in the tree.  Only its length is ever consumed (by
`traceApproximateSize`). -/
def Tag.toStr (t : Tag) : Str := t.name ++ ':' :: t.value

/-- A sublayer value (`model.SublayerValue`). -/
structure SublayerValue where
  metric : Str
  tag : Tag
  value : Nat
deriving DecidableEq, Repr

/-- `model.Span` — the fields the modelled code reads or writes. -/
structure Span where
  traceID : Nat
  spanID : Nat
  parentID : Nat
  service : Str
  name : Str
  resource : Str
  spanType : Str
  start : Int
  duration : Int
  meta : List (Str × Str)
  metrics : List (Str × Nat)
deriving DecidableEq, Repr

/-- `model.ProcessedTrace` — the fields the modelled code reads. -/
structure PTrace where
  root : Span
  trace : List Span
  env : Str
  sublayers : List (Span × List SublayerValue)
deriving DecidableEq, Repr

/-! ## Span normalizer (`model` package, `Span.Normalize`) -/

def MaxServiceLen : Nat := 100
def MaxNameLen : Nat := 100
def MaxResourceLen : Nat := 5000
def MaxTypeLen : Nat := 100
def MaxMetaKeyLen : Nat := 100
def MaxMetaValLen : Nat := 5000
def MaxMetricsKeyLen : Nat := MaxMetaKeyLen

/-- `time.Date(2000, 1, 1, 0, 0, 0, 0, UTC).UnixNano()`. -/
def Year2000NanosecTS : Int := 946684800000000000

/-- Go `isAlpha` (ASCII). -/
def isAlpha (c : Char) : Bool :=
  (97 ≤ c.toNat && c.toNat ≤ 122) || (65 ≤ c.toNat && c.toNat ≤ 90)

/-- Go `isAlphaNum` (ASCII). -/
def isAlphaNum (c : Char) : Bool :=
  isAlpha c || (48 ≤ c.toNat && c.toNat ≤ 57)

/-- The main scan loop of `normMetricNameParse`.  The Go loop appends to a
byte buffer `res` and inspects `res[ptr-1]`; the model carries the buffer
as `front ++ [last]`, with the last emitted byte held separately (the loop
is entered only after one alphabetic byte has been emitted, so the buffer
is never empty). -/
def normLoop : List Char → List Char → Char → List Char
  | [], front, last => front ++ [last]
  | c :: cs, front, last =>
    if isAlphaNum c then normLoop cs (front ++ [last]) c
    else if c = '.' then
      -- overwrite an underscore that happens before a period
      if last = '_' then normLoop cs front '.'
      else normLoop cs (front ++ [last]) '.'
    else
      -- no double underscores, no underscores after periods
      if last = '.' ∨ last = '_' then normLoop cs front last
      else normLoop cs (front ++ [last]) '_'

/-- Trailing-underscore strip: `if res[ptr-1] == '_' { res = res[:ptr-1] }`. -/
def stripTrailingUnderscore (l : List Char) : List Char :=
  if l.getLast? = some '_' then l.dropLast else l

/-- `normMetricNameParse`: returns the normalized name and an ok flag. -/
def normMetricNameParse (name : Str) : Str × Bool :=
  if name = [] ∨ MaxNameLen < name.length then (name, false)
  else
    match name.dropWhile (fun c => !(isAlpha c)) with
    | [] => ([], false)  -- no alphabetic characters: not valid
    | c :: rest => (stripTrailingUnderscore (normLoop rest [] c), true)

/-- Over-length truncation with a `...` suffix (`fmt.Sprintf("%s...", s[:n])`),
as applied to meta keys/values and metric keys. -/
def truncDots (n : Nat) (s : Str) : Str :=
  if n < s.length then s.take n ++ str "..." else s

/-- One `Meta` entry of `Normalize`: truncate over-length key and value.
The Go loop deletes the old key and re-inserts the truncated one; with no
key collisions after truncation this is an entrywise map. -/
def normMetaEntry (e : Str × Str) : Str × Str :=
  (truncDots MaxMetaKeyLen e.1, truncDots MaxMetaValLen e.2)

/-- One `Metrics` entry of `Normalize`: truncate an over-length key. -/
def normMetricsEntry (e : Str × Nat) : Str × Nat :=
  (truncDots MaxMetricsKeyLen e.1, e.2)

/-- In-place truncation without suffix (`s.Resource = s.Resource[:n]`). -/
def truncPlain (n : Nat) (s : Str) : Str :=
  if n < s.length then s.take n else s

/-- `Span.Normalize`: `none` models a returned error, `some` the span
after the in-place mutations.  The checks run in the source's order; the
mutations (name rewrite, resource/meta/metrics truncation) are surfaced
only on success, since a span that fails normalization is dropped by every
caller. -/
def Span.Normalize (s : Span) : Option Span :=
  if s.service = [] then none
  else if MaxServiceLen < s.service.length then none
  else if s.name = [] then none
  else if MaxNameLen < s.name.length then none
  else if (normMetricNameParse s.name).2 then
    if s.resource = [] then none
    else if s.traceID = 0 then none
    else if s.spanID = 0 then none
    else if s.start < Year2000NanosecTS then none
    else if s.duration = 0 then none
    else if MaxTypeLen < s.spanType.length then none
    else some { s with name := (normMetricNameParse s.name).1,
                       resource := truncPlain MaxResourceLen s.resource,
                       meta := s.meta.map normMetaEntry,
                       metrics := s.metrics.map normMetricsEntry }
  else none

/-- The span produced by a successful `Normalize`. -/
def normalizedSpan (s : Span) : Span :=
  { s with name := (normMetricNameParse s.name).1,
           resource := truncPlain MaxResourceLen s.resource,
           meta := s.meta.map normMetaEntry,
           metrics := s.metrics.map normMetricsEntry }

/-- A successful `Normalize` implies every check passed and pins down the
result. -/
theorem Normalize_some_inv (s s' : Span) (h : s.Normalize = some s') :
    ¬s.service = [] ∧ ¬MaxServiceLen < s.service.length
    ∧ ¬s.name = [] ∧ ¬MaxNameLen < s.name.length
    ∧ (normMetricNameParse s.name).2 = true
    ∧ ¬s.resource = []
    ∧ ¬s.traceID = 0 ∧ ¬s.spanID = 0
    ∧ ¬s.start < Year2000NanosecTS
    ∧ ¬s.duration = 0
    ∧ ¬MaxTypeLen < s.spanType.length
    ∧ s' = normalizedSpan s := by
  unfold Span.Normalize at h
  by_cases c1 : s.service = []
  · rw [if_pos c1] at h; exact Option.noConfusion h
  rw [if_neg c1] at h
  by_cases c2 : MaxServiceLen < s.service.length
  · rw [if_pos c2] at h; exact Option.noConfusion h
  rw [if_neg c2] at h
  by_cases c3 : s.name = []
  · rw [if_pos c3] at h; exact Option.noConfusion h
  rw [if_neg c3] at h
  by_cases c4 : MaxNameLen < s.name.length
  · rw [if_pos c4] at h; exact Option.noConfusion h
  rw [if_neg c4] at h
  by_cases c5 : (normMetricNameParse s.name).2 = true
  swap
  · rw [if_neg c5] at h; exact Option.noConfusion h
  rw [if_pos c5] at h
  by_cases c6 : s.resource = []
  · rw [if_pos c6] at h; exact Option.noConfusion h
  rw [if_neg c6] at h
  by_cases c7 : s.traceID = 0
  · rw [if_pos c7] at h; exact Option.noConfusion h
  rw [if_neg c7] at h
  by_cases c8 : s.spanID = 0
  · rw [if_pos c8] at h; exact Option.noConfusion h
  rw [if_neg c8] at h
  by_cases c9 : s.start < Year2000NanosecTS
  · rw [if_pos c9] at h; exact Option.noConfusion h
  rw [if_neg c9] at h
  by_cases c10 : s.duration = 0
  · rw [if_pos c10] at h; exact Option.noConfusion h
  rw [if_neg c10] at h
  by_cases c11 : MaxTypeLen < s.spanType.length
  · rw [if_pos c11] at h; exact Option.noConfusion h
  rw [if_neg c11] at h
  exact ⟨c1, c2, c3, c4, c5, c6, c7, c8, c9, c10, c11, (Option.some.inj h).symm⟩

/-- When every check passes, `Normalize` succeeds with the truncated
span. -/
theorem Normalize_eq_some (s : Span)
    (c1 : ¬s.service = []) (c2 : ¬MaxServiceLen < s.service.length)
    (c3 : ¬s.name = []) (c4 : ¬MaxNameLen < s.name.length)
    (c5 : (normMetricNameParse s.name).2 = true)
    (c6 : ¬s.resource = [])
    (c7 : ¬s.traceID = 0) (c8 : ¬s.spanID = 0)
    (c9 : ¬s.start < Year2000NanosecTS)
    (c10 : ¬s.duration = 0)
    (c11 : ¬MaxTypeLen < s.spanType.length) :
    s.Normalize = some (normalizedSpan s) := by
  unfold Span.Normalize
  rw [if_neg c1, if_neg c2, if_neg c3, if_neg c4, if_pos c5, if_neg c6,
      if_neg c7, if_neg c8, if_neg c9, if_neg c10, if_neg c11]
  rfl

/-! ## Single-slot reservoir and stratified reservoir
(`sampler/reservoir/reservoir.go`) -/

/-- `const maxMemorySize = uint64(1 * 1024) // 100 MB` — note that the
value in the source is `1 * 1024` bytes while its own comment says 100 MB. -/
def maxMemorySize : Nat := 1 * 1024

/-- `reservoir.Reservoir`: a slot array (always of length 1, as produced by
`newReservoir`), a trace counter, the end time of the latest admitted
trace, and a byte-size estimate.  A slot entry `none` models a nil
pointer. -/
structure Reservoir where
  Slots : List (Option PTrace)
  latestTrace : Int
  TraceCount : Nat
  size : Nat
deriving DecidableEq, Repr

/-- `newReservoir()`: one empty slot, zero counter. -/
def newReservoir : Reservoir :=
  { Slots := [none], latestTrace := 0, TraceCount := 0, size := 0 }

/-- `Reservoir.Add`: increment the counter; install into an empty slot, or
replace the occupant exactly when the incoming trace id is strictly
greater; the second component is the dropped trace (`nil` modelled as
`none`).  The `[]` case is unreachable (slots always have length 1; Go
would panic on the index). -/
def Reservoir.Add (r : Reservoir) (trace : PTrace) : Reservoir × Option PTrace :=
  let r1 := { r with TraceCount := r.TraceCount + 1 }
  match r1.Slots with
  | none :: rest =>
    ({ r1 with Slots := some trace :: rest,
               latestTrace := trace.root.start + trace.root.duration }, none)
  | some cur :: rest =>
    if cur.root.traceID < trace.root.traceID then
      ({ r1 with Slots := some trace :: rest }, some cur)
    else (r1, some trace)
  | [] => (r1, none)

/-- `reservoir.StratifiedReservoir` (the lock, the flusher pointer and the
callbacks are modelled at the `SysState` level). -/
structure StratifiedReservoir where
  reservoirs : List (Nat × Reservoir)
  size : Nat
  limit : Nat
  shrinked : Bool
deriving DecidableEq, Repr

/-- `NewStratifiedReservoir()`. -/
def NewStratifiedReservoir : StratifiedReservoir :=
  { reservoirs := [], size := 0, limit := maxMemorySize, shrinked := false }

/-- `StratifiedReservoir.isFull`. -/
def StratifiedReservoir.isFull (s : StratifiedReservoir) : Bool :=
  s.limit ≤ s.size

/-- `StratifiedReservoir.Shrink`. -/
def StratifiedReservoir.Shrink (s : StratifiedReservoir) : StratifiedReservoir :=
  { s with shrinked := true }

/-- `traceApproximateSize`. -/
def traceApproximateSize (trace : PTrace) : Nat :=
  trace.env.length +
    trace.trace.foldl (fun acc span =>
      acc + 44 + span.service.length + span.name.length + span.resource.length
        + span.meta.foldl (fun a e => a + e.1.length + e.2.length) 0
        + span.metrics.foldl (fun a e => a + e.1.length + 8) 0
        + ((lookupA trace.sublayers span).getD []).foldl
            (fun a sv => a + 8 + sv.tag.toStr.length + sv.metric.length) 0) 0

/-- `flusher.FlushBucket`: a signature and the wall-clock time (ns) of its
last successful flush (zero-valued for a fresh bucket). -/
structure FlushBucket where
  Signature : Nat
  LastSuccessfulFlush : Nat
deriving DecidableEq, Repr

/-- The combined mutable state the reservoir/flusher pair operates on: the
stratified reservoir, the flusher's bucket list (fed through
`HandleNewSignature`), and the traces handed to the drop callback
(oldest first). -/
structure SysState where
  strat : StratifiedReservoir
  buckets : List FlushBucket
  dropped : List PTrace
deriving DecidableEq, Repr

/-- The hit path of `StratifiedReservoir.Add`: run the single-slot `Add`
on the existing reservoir and hand any dropped trace to the drop
callback. -/
def resUpdate (sys : SysState) (sig : Nat) (trace : PTrace) (reservoir : Reservoir) :
    SysState :=
  let (r', droppedTrace) := reservoir.Add trace
  { sys with
    strat := { sys.strat with reservoirs := setA sys.strat.reservoirs sig r' }
    dropped := sys.dropped ++ droppedTrace.toList }

/-- The create path of `StratifiedReservoir.Add`: notify the flusher of
the new signature (a fresh zero-stamped bucket is appended), create the
reservoir carrying the approximate trace size, add that size to the
aggregate, then run the single-slot `Add`. -/
def resCreate (sys : SysState) (sig : Nat) (trace : PTrace) : SysState :=
  let traceSize := traceApproximateSize trace
  let r0 := { newReservoir with size := traceSize }
  let (r', droppedTrace) := r0.Add trace
  { sys with
    strat := { sys.strat with
               reservoirs := setA sys.strat.reservoirs sig r'
               size := sys.strat.size + traceSize }
    buckets := sys.buckets ++ [{ Signature := sig, LastSuccessfulFlush := 0 }]
    dropped := sys.dropped ++ droppedTrace.toList }

/-- The diverted recursive call `s.Add(Signature(0), trace)` of the Go
source: with signature 0 the shrink rewrite and the divert branch are both
no-ops, so the recursion bottoms out after one step; it is inlined here
(see `addGo_zero`, which checks the inlining against `addGo` itself). -/
def addAt (sys : SysState) (sig : Nat) (trace : PTrace) : SysState :=
  match lookupA sys.strat.reservoirs sig with
  | some reservoir => resUpdate sys sig trace reservoir
  | none => resCreate sys sig trace

/-- The body of `StratifiedReservoir.Add` after the shrink rewrite of the
signature: look up the reservoir; on a miss either divert to signature 0
(when `sig ≠ 0` and the aggregate is at the limit) or create the
reservoir; in either case the single-slot `Add` runs and any dropped trace
goes to the drop callback. -/
def addGo (sys : SysState) (sig : Nat) (trace : PTrace) : SysState :=
  match lookupA sys.strat.reservoirs sig with
  | some reservoir => resUpdate sys sig trace reservoir
  | none =>
    if sig ≠ 0 ∧ sys.strat.isFull then addAt sys 0 trace
    else resCreate sys sig trace

/-- `StratifiedReservoir.Add` (at the system level): a shrunk reservoir
routes every arrival to signature 0. -/
def SysState.Add (sys : SysState) (sig : Nat) (trace : PTrace) : SysState :=
  addGo sys (if sys.strat.shrinked then 0 else sig) trace

/-- The inlining of the diverted call agrees with `addGo` at signature 0:
`addAt sys 0` is exactly `addGo sys 0`. -/
theorem addGo_zero (sys : SysState) (trace : PTrace) :
    addGo sys 0 trace = addAt sys 0 trace := by
  unfold addGo addAt
  cases lookupA sys.strat.reservoirs 0 <;> simp

/-- `StratifiedReservoir.GetAndReset`: `none` when the signature is absent
or its counter is zero; otherwise replace the reservoir with a fresh one
carrying over the size estimate and return the old one. -/
def StratifiedReservoir.GetAndReset (s : StratifiedReservoir) (sig : Nat) :
    Option Reservoir × StratifiedReservoir :=
  match lookupA s.reservoirs sig with
  | none => (none, s)
  | some reservoir =>
    if reservoir.TraceCount = 0 then (none, s)
    else
      let fresh := { newReservoir with size := reservoir.size }
      (some reservoir, { s with reservoirs := setA s.reservoirs sig fresh })

/-- `StratifiedReservoir.Remove`: delete the reservoir and subtract its
recorded size from the aggregate. -/
def StratifiedReservoir.Remove (s : StratifiedReservoir) (sig : Nat) :
    StratifiedReservoir :=
  let size := match lookupA s.reservoirs sig with
              | some reservoir => reservoir.size
              | none => 0
  { s with reservoirs := eraseA s.reservoirs sig, size := s.size - size }

/-! ## Flush scheduler walk (`sampler/reservoir/flusher.go`, `Flusher.flush`)

`flush` is modelled as a pure walk over the bucket list, parameterized by
the wall-clock instant `now` (ns) and the flusher's `maxNoFlushInterval`
(ns).  Ticker plumbing, the ticket channel and `PrintReservoirs` (pure
I/O) are not modelled. -/

/-- Modelled from the spec: `Span.SetMetric` (its `model`-package source is
not in the tree) writes a value into the span's metrics mapping. -/
def Span.SetMetric (s : Span) (k : Str) (v : Nat) : Span :=
  { s with metrics := setA s.metrics k v }

/-- Go `strconv.FormatBool`. -/
def formatBool (b : Bool) : Str :=
  if b then str "true" else str "false"

/-- The annotation `flush` performs on the emitted trace's root:
`res.limit` into `Meta` (as a formatted boolean), `res.slots`, `res.seen`
and `res.rate` into metrics via `SetMetric`.  In Go the root span is
mutated through a pointer (so the copy inside `trace.Trace` aliases it);
the model updates the `root` field, which is all the claims observe. -/
def annotateRoot (trace : PTrace) (sig numSlots numSeen : Nat) : PTrace :=
  let root := trace.root
  let root := { root with meta := setA root.meta (str "res.limit") (formatBool (sig = 0)) }
  let root := root.SetMetric (str "res.slots") numSlots
  let root := root.SetMetric (str "res.seen") numSeen
  let root := root.SetMetric (str "res.rate") (numSlots / numSeen)
  { trace with root := root }

/-- The emission step on a non-empty drain: `for _, trace := range
reservoir.Slots { ...; return trace }` annotates and returns the first
slot.  An empty slice falls through (no emission); a `nil` first slot
would crash Go (unreachable: a non-zero counter implies a filled slot) and
yields no emission in the model. -/
def emitRes (reservoir : Reservoir) (sig : Nat) : Option PTrace :=
  match reservoir.Slots with
  | some trace :: _ =>
    some (annotateRoot trace sig reservoir.Slots.length reservoir.TraceCount)
  | _ => none

/-- The walk of `Flusher.flush` over the bucket list: drain each bucket in
order; an empty, recently flushed bucket is skipped; an empty bucket that
has not flushed for more than `maxNoFlushInterval` is removed together
with its reservoir, and the walk TERMINATES there with no emission —
`container/list.Remove` nils the element's links, so the loop's
`e = e.Next()` yields nil; on the first non-empty drain, the bucket moves
to the back stamped with `now`, the slotted trace is annotated and
emitted, and the walk stops.  Returns the emitted trace, the updated
stratified reservoir, and the updated bucket list. -/
def flushWalk (now itv : Nat) (strat : StratifiedReservoir) :
    List FlushBucket → Option PTrace × StratifiedReservoir × List FlushBucket
  | [] => (none, strat, [])
  | b :: bs =>
    match strat.GetAndReset b.Signature with
    | (none, _) =>
      -- a `none` drain leaves the stratified reservoir unchanged
      if itv < now - b.LastSuccessfulFlush then
        -- removeBucket, then the range loop ends: the rest is not visited
        (none, strat.Remove b.Signature, bs)
      else
        let (em, strat2, bs') := flushWalk now itv strat bs
        (em, strat2, b :: bs')
    | (some reservoir, strat1) =>
      (emitRes reservoir b.Signature, strat1,
       bs ++ [{ b with LastSuccessfulFlush := now }])

/-- `Flusher.flush` at the system level. -/
def SysState.flush (sys : SysState) (now itv : Nat) : Option PTrace × SysState :=
  let (em, strat', bks') := flushWalk now itv sys.strat sys.buckets
  (em, { sys with strat := strat', buckets := bks' })

/-! ## Association-list lemmas -/

theorem lookupA_setA_self {α β : Type} [DecidableEq α]
    (m : List (α × β)) (k : α) (v : β) : lookupA (setA m k v) k = some v := by
  induction m with
  | nil => simp [setA, lookupA]
  | cons e rest ih =>
    by_cases h : e.1 = k <;> simp [setA, lookupA, h, ih]

theorem lookupA_setA_other {α β : Type} [DecidableEq α]
    (m : List (α × β)) (k k' : α) (v : β) (h : k ≠ k') :
    lookupA (setA m k v) k' = lookupA m k' := by
  induction m with
  | nil => simp [setA, lookupA, h]
  | cons e rest ih =>
    by_cases he : e.1 = k <;> simp [setA, lookupA, he, h, ih]

theorem lookupA_eraseA_self {α β : Type} [DecidableEq α]
    (m : List (α × β)) (k : α) : lookupA (eraseA m k) k = none := by
  induction m with
  | nil => simp [eraseA, lookupA]
  | cons e rest ih =>
    by_cases h : e.1 = k <;> simp [eraseA, lookupA, h, ih]

theorem lookupA_eraseA_other {α β : Type} [DecidableEq α]
    (m : List (α × β)) (k k' : α) (h : k ≠ k') :
    lookupA (eraseA m k) k' = lookupA m k' := by
  induction m with
  | nil => simp [eraseA, lookupA]
  | cons e rest ih =>
    by_cases he : e.1 = k <;> by_cases he' : e.1 = k' <;>
      simp_all [eraseA, lookupA]

/-- `Reservoir.Add` always increments the counter by one. -/
theorem Reservoir.Add_traceCount (r : Reservoir) (t : PTrace) :
    ((r.Add t).1).TraceCount = r.TraceCount + 1 := by
  unfold Reservoir.Add
  rcases hs : r.Slots with _ | ⟨_ | cur, rest⟩ <;> simp [hs]
  split <;> rfl

/-! ## Flush-walk lemmas -/

/-- A signature whose drain comes back empty: absent, or zero counter. -/
def drainEmptyB (s : StratifiedReservoir) (sig : Nat) : Bool :=
  match lookupA s.reservoirs sig with
  | none => true
  | some reservoir => reservoir.TraceCount = 0

/-- An empty drain returns the state unchanged. -/
theorem GetAndReset_empty (s : StratifiedReservoir) (sig : Nat)
    (h : drainEmptyB s sig = true) : s.GetAndReset sig = (none, s) := by
  unfold StratifiedReservoir.GetAndReset
  unfold drainEmptyB at h
  rcases hl : lookupA s.reservoirs sig with _ | r
  · rfl
  · rw [hl] at h
    simp only [hl]
    rw [if_pos (by simpa using h)]

/-- A non-empty drain returns the reservoir and swaps in a fresh one
keeping the size estimate. -/
theorem GetAndReset_nonempty (s : StratifiedReservoir) (sig : Nat) (r : Reservoir)
    (hl : lookupA s.reservoirs sig = some r) (hc : r.TraceCount ≠ 0) :
    s.GetAndReset sig
      = (some r,
         { s with reservoirs := setA s.reservoirs sig { newReservoir with size := r.size } }) := by
  unfold StratifiedReservoir.GetAndReset
  simp only [hl]
  rw [if_neg hc]

/-- Inversion of a non-empty drain. -/
theorem GetAndReset_some_inv (s : StratifiedReservoir) (sig : Nat) (r : Reservoir)
    (s1 : StratifiedReservoir) (h : s.GetAndReset sig = (some r, s1)) :
    lookupA s.reservoirs sig = some r ∧ r.TraceCount ≠ 0 ∧
      s1 = { s with reservoirs := setA s.reservoirs sig { newReservoir with size := r.size } } := by
  unfold StratifiedReservoir.GetAndReset at h
  split at h
  · exact absurd h (by simp)
  next reservoir heq =>
    split at h
    · exact absurd h (by simp)
    next hc =>
      rw [Prod.mk.injEq] at h
      obtain ⟨h1, h2⟩ := h
      obtain rfl := Option.some.inj h1
      exact ⟨heq, hc, h2.symm⟩

/-- A prefix of empty, recently flushed buckets is walked over unchanged. -/
theorem flushWalk_skip_empties (now itv : Nat) :
    ∀ (pre rest : List FlushBucket) (strat : StratifiedReservoir),
      (∀ p ∈ pre, drainEmptyB strat p.Signature = true
        ∧ now - p.LastSuccessfulFlush ≤ itv) →
      flushWalk now itv strat (pre ++ rest)
        = ((flushWalk now itv strat rest).1,
           (flushWalk now itv strat rest).2.1,
           pre ++ (flushWalk now itv strat rest).2.2) := by
  intro pre
  induction pre with
  | nil => intro rest strat _; simp
  | cons p pre' ih =>
    intro rest strat hpre
    have hp := hpre p (List.mem_cons_self _ _)
    have hrec := ih rest strat (fun q hq => hpre q (List.mem_cons_of_mem _ hq))
    rw [List.cons_append, flushWalk, GetAndReset_empty strat p.Signature hp.1]
    simp only
    rw [if_neg (by omega)]
    rw [hrec]
    rfl

/-- The walk stops at the first non-empty bucket: it emits that bucket's
annotated slot and splices the bucket, stamped with `now`, to the tail. -/
theorem flushWalk_emit_head (now itv : Nat) (strat : StratifiedReservoir)
    (b : FlushBucket) (post : List FlushBucket) (r : Reservoir)
    (hl : lookupA strat.reservoirs b.Signature = some r)
    (hc : r.TraceCount ≠ 0) :
    flushWalk now itv strat (b :: post)
      = (emitRes r b.Signature, (strat.GetAndReset b.Signature).2,
         post ++ [{ b with LastSuccessfulFlush := now }]) := by
  rw [flushWalk, GetAndReset_nonempty strat b.Signature r hl hc]

/-! ## Sublayer computation

`ComputeSublayers`, `buildTraceTimestamps` and `buildTraceActiveSpansMapping`
are not part of the source tree; only the tests in
`src/model/sublayers_test.go` are.  Both definitions below are therefore
modelled from the specification (section 4.C), parameterized by the
active-span predicate; durations are integer nanoseconds with integer
division, as the spec's numeric semantics demand. -/

/-- Modelled from the spec: insertion into a sorted duplicate-free list of
timestamps (step 1 of section 4.C builds the sorted unique endpoint
list). -/
def insertTS (x : Int) : List Int → List Int
  | [] => [x]
  | y :: ys =>
    if x < y then x :: y :: ys
    else if x = y then y :: ys
    else y :: insertTS x ys

/-- Modelled from the spec: the sorted unique list of all span start and
end points of a trace (`buildTraceTimestamps`, whose source is missing). -/
def buildTraceTimestamps (trace : List Span) : List Int :=
  trace.foldr (fun s acc => insertTS s.start (insertTS (s.start + s.duration) acc)) []

/-- Modelled from the spec: span `S` is active at `t` iff
`S.start ≤ t < S.start + S.duration` (the literal wording of section 4.C,
step 2). -/
def activeLiteral (t : Int) (s : Span) : Bool :=
  decide (s.start ≤ t) && decide (t < s.start + s.duration)

/-- Modelled from the repository's own test expectations
(`TestBuildTraceActiveSpansMapping`): a span counts as active at `t` only
when it covers `t` and none of its direct children covers `t`. -/
def activeNoChild (trace : List Span) (t : Int) (s : Span) : Bool :=
  activeLiteral t s &&
    trace.all (fun c => !(c.parentID = s.spanID && activeLiteral t c))

/-- Add `d` to the accumulator bound to key `k` (insert on first use). -/
def addVal (m : List (Str × Int)) (k : Str) (d : Int) : List (Str × Int) :=
  match lookupA m k with
  | some v => setA m k (v + d)
  | none => setA m k d

/-- Modelled from the spec: the interval algorithm of section 4.C,
parameterized by the active-span predicate.  For each consecutive
timestamp pair, distribute the interval length evenly over the active
spans (`Δ/|A|` per occurrence, integer division), accumulating per-service
and per-type totals; the third component is the span count. -/
def computeSublayersWith (active : Int → Span → Bool) (trace : List Span) :
    List (Str × Int) × List (Str × Int) × Nat :=
  let ts := buildTraceTimestamps trace
  let step := fun (acc : List (Str × Int) × List (Str × Int)) (iv : Int × Int) =>
    let A := trace.filter (active iv.1)
    if A.length = 0 then acc
    else
      let share := (iv.2 - iv.1) / (A.length : Int)
      A.foldl (fun m sp => (addVal m.1 sp.service share, addVal m.2 sp.spanType share)) acc
  let r := (ts.zip ts.tail).foldl step ([], [])
  (r.1, r.2, trace.length)

/-- `ComputeSublayers` with the spec's literal active-span rule. -/
def ComputeSublayersSpec (trace : List Span) : List (Str × Int) × List (Str × Int) × Nat :=
  computeSublayersWith activeLiteral trace

/-- `ComputeSublayers` with the active-span rule the repository's tests
pin down (no active direct child). -/
def ComputeSublayersNoChild (trace : List Span) : List (Str × Int) × List (Str × Int) × Nat :=
  computeSublayersWith (activeNoChild trace) trace

/-! ## Concrete scenario states -/

/-- The test helper `generateTrace`: a one-span trace whose root carries
only a trace id (all strings empty, hence approximate size 44). -/
def generateTrace (traceID : Nat) : PTrace :=
  let root : Span :=
    { traceID := traceID, spanID := 0, parentID := 0, service := [], name := [],
      resource := [], spanType := [], start := 0, duration := 0, meta := [],
      metrics := [] }
  { root := root, trace := [root], env := [], sublayers := [] }

/-- A freshly initialized system around a given stratified reservoir. -/
def initSys (strat : StratifiedReservoir) : SysState :=
  { strat := strat, buckets := [], dropped := [] }

/-- Scenario S4: traces with ids 10, 20, 5, 7, 15 fed into one stratum. -/
def sysS4 : SysState :=
  [10, 20, 5, 7, 15].foldl (fun sy i => sy.Add 1 (generateTrace i))
    (initSys NewStratifiedReservoir)

/-- Scenario S5: byte limit 88, one 44-byte trace fed to each of the
signatures 1, 2, …, 10. -/
def sysS5 : SysState :=
  (List.range 10).foldl (fun sy i => sy.Add (i + 1) (generateTrace (i + 1)))
    (initSys { NewStratifiedReservoir with limit := 88 })

/-! ## Claim C1 -/

/-- C1: every `Reservoir.Add` increments `TraceCount` by exactly one; on an
empty slot the trace is installed and nothing is dropped; on an occupied
slot the occupant is replaced exactly when the incoming trace id is
strictly greater (the displaced trace is returned as dropped, otherwise
the incoming trace is); and feeding traces with ids 10, 20, 5, 7, 15 into
one stratum and draining yields the trace with id 20 and a `TraceCount` of
5. -/
theorem reservoir_add_selection_rule :
    (∀ (r : Reservoir) (t : PTrace), ((r.Add t).1).TraceCount = r.TraceCount + 1)
    ∧ (∀ (r : Reservoir) (t : PTrace) (rest : List (Option PTrace)),
        r.Slots = none :: rest →
          (r.Add t).1.Slots = some t :: rest ∧ (r.Add t).2 = none)
    ∧ (∀ (r : Reservoir) (t cur : PTrace) (rest : List (Option PTrace)),
        r.Slots = some cur :: rest →
          (if cur.root.traceID < t.root.traceID
           then (r.Add t).1.Slots = some t :: rest ∧ (r.Add t).2 = some cur
           else (r.Add t).1.Slots = r.Slots ∧ (r.Add t).2 = some t))
    ∧ ((sysS4.strat.GetAndReset 1).1.map
         (fun r => (r.TraceCount, r.Slots.map (Option.map (fun t => t.root.traceID))))
        = some (5, [some 20])) := by
  refine ⟨?_, ?_, ?_, ?_⟩
  · intro r t
    unfold Reservoir.Add
    rcases hs : r.Slots with _ | ⟨_ | cur, rest⟩ <;> simp [hs]
    split <;> rfl
  · intro r t rest hs
    unfold Reservoir.Add
    simp [hs]
  · intro r t cur rest hs
    unfold Reservoir.Add
    simp only [hs]
    split <;> simp_all
  · decide

/-- Witness for C1 at concrete inputs: the empty-slot, the replace and the
keep branches, instantiated. -/
theorem reservoir_add_selection_rule_witness :
    ((newReservoir.Add (generateTrace 3)).1.Slots = [some (generateTrace 3)]
      ∧ (newReservoir.Add (generateTrace 3)).2 = none)
    ∧ (((newReservoir.Add (generateTrace 3)).1.Add (generateTrace 9)).2
        = some (generateTrace 3))
    ∧ (((newReservoir.Add (generateTrace 9)).1.Add (generateTrace 4)).2
        = some (generateTrace 4)) := by
  refine ⟨?_, ?_, ?_⟩
  · exact reservoir_add_selection_rule.2.1 newReservoir (generateTrace 3) [] rfl
  · have h := reservoir_add_selection_rule.2.2.1
      (newReservoir.Add (generateTrace 3)).1 (generateTrace 9) (generateTrace 3) []
      (by decide)
    rw [if_pos (by decide)] at h
    exact h.2
  · have h := reservoir_add_selection_rule.2.2.1
      (newReservoir.Add (generateTrace 9)).1 (generateTrace 4) (generateTrace 9) []
      (by decide)
    rw [if_neg (by decide)] at h
    exact h.2

/-! ## Claim C2 -/

/-- C2: when `add(sig, trace)` with `sig ≠ 0` finds no reservoir and the
aggregate size is at or above the limit, the call is diverted to the
always-admissible signature-0 overflow stratum; and with limit 88 and
44-byte traces fed to signatures 1..10, only signatures 1 and 2 obtain
strata (besides the overflow stratum itself), the remaining eight traces
land in signature 0, and draining signature 0 yields a `TraceCount` of
8. -/
theorem stratified_overflow_divert :
    (∀ (sys : SysState) (sig : Nat) (t : PTrace),
        sig ≠ 0 →
        lookupA sys.strat.reservoirs sig = none →
        sys.strat.limit ≤ sys.strat.size →
        sys.Add sig t = sys.Add 0 t)
    ∧ sysS5.strat.reservoirs.map Prod.fst = [1, 2, 0]
    ∧ ((sysS5.strat.GetAndReset 0).1.map (fun r => r.TraceCount)) = some 8 := by
  refine ⟨?_, by decide, by decide⟩
  intro sys sig t hsig hnone hfull
  unfold SysState.Add
  rcases hshr : sys.strat.shrinked with _ | _
  · simp only [hshr, if_neg Bool.false_ne_true]
    rw [addGo_zero]
    unfold addGo
    simp only [hnone]
    rw [if_pos]
    exact ⟨hsig, by simp [StratifiedReservoir.isFull, hfull]⟩
  · simp [hshr]

/-- Witness for C2: a full one-signature reservoir diverts signature 7 to
signature 0. -/
theorem stratified_overflow_divert_witness :
    (initSys { NewStratifiedReservoir with size := 2048 }).Add 7 (generateTrace 1)
      = (initSys { NewStratifiedReservoir with size := 2048 }).Add 0 (generateTrace 1) :=
  stratified_overflow_divert.1
    (initSys { NewStratifiedReservoir with size := 2048 }) 7 (generateTrace 1)
    (by decide) (by decide) (by decide)

/-! ## Claim C3 -/

/-- C3: once `Shrink` has set the overflow-only flag, every subsequent
`add(sig, t)` stores the trace under signature 0 — the signature-0
reservoir's counter grows by one and its slot is the only one touched —
no reservoir keyed by a non-zero signature is ever created, and the flag
stays set (so this holds for all later adds as well). -/
theorem shrink_routes_everything_to_zero :
    ∀ (sys : SysState) (sig : Nat) (t : PTrace),
      sys.strat.shrinked = true →
      (sys.Add sig t = addAt sys 0 t)
      ∧ (((lookupA (sys.Add sig t).strat.reservoirs 0).map Reservoir.TraceCount)
          = some (((lookupA sys.strat.reservoirs 0).map Reservoir.TraceCount).getD 0 + 1))
      ∧ (∀ sig', sig' ≠ 0 →
          lookupA (sys.Add sig t).strat.reservoirs sig'
            = lookupA sys.strat.reservoirs sig')
      ∧ (sys.Add sig t).strat.shrinked = true := by
  intro sys sig t hshr
  have hroute : sys.Add sig t = addAt sys 0 t := by
    unfold SysState.Add
    rw [hshr]
    simp only [if_pos rfl]
    exact addGo_zero sys t
  refine ⟨hroute, ?_, ?_, ?_⟩
  · rw [hroute]
    unfold addAt
    rcases h0 : lookupA sys.strat.reservoirs 0 with _ | r
    · simp [resCreate, h0, lookupA_setA_self, Reservoir.Add_traceCount, newReservoir]
    · simp [resUpdate, h0, lookupA_setA_self, Reservoir.Add_traceCount]
  · intro sig' hsig'
    rw [hroute]
    unfold addAt
    rcases h0 : lookupA sys.strat.reservoirs 0 with _ | r
    · simp [resCreate, lookupA_setA_other _ _ _ _ (fun h => hsig' h.symm)]
    · simp [resUpdate, lookupA_setA_other _ _ _ _ (fun h => hsig' h.symm)]
  · rw [hroute]
    unfold addAt
    rcases h0 : lookupA sys.strat.reservoirs 0 with _ | r <;>
      simp [resCreate, resUpdate, hshr]

/-- Witness for C3: a shrunk empty system routes signature 42 to signature
0. -/
theorem shrink_routes_everything_to_zero_witness :
    ((initSys NewStratifiedReservoir.Shrink).Add 42 (generateTrace 1)
        = addAt (initSys NewStratifiedReservoir.Shrink) 0 (generateTrace 1))
    ∧ lookupA ((initSys NewStratifiedReservoir.Shrink).Add 42
        (generateTrace 1)).strat.reservoirs 42 = none := by
  have h := shrink_routes_everything_to_zero
    (initSys NewStratifiedReservoir.Shrink) 42 (generateTrace 1) (by decide)
  exact ⟨h.1, by rw [h.2.2.1 42 (by decide)]; decide⟩

/-! ## Claims C5, C6, C7: the flush walk -/

/-- A reservoir holding one trace (as `Reservoir.Add` leaves a fresh one). -/
def readyReservoir (id : Nat) : Reservoir := (newReservoir.Add (generateTrace id)).1

/-- A system with a non-empty stratum 1 and an empty, long-dormant
stratum 2, at wall-clock 100 with `maxNoFlushInterval` 30: bucket 2 is
behind bucket 1 in the list. -/
def sysDormant : SysState :=
  { strat := { reservoirs := [(1, readyReservoir 7), (2, newReservoir)],
               size := 88, limit := 1024, shrinked := false },
    buckets := [{ Signature := 1, LastSuccessfulFlush := 0 },
                { Signature := 2, LastSuccessfulFlush := 0 }],
    dropped := [] }

/-- Readiness of a stratum for emission: present, non-zero counter, and a
filled first slot (the shape every reservoir that has seen an `Add` since
its last drain has). -/
def readyB (s : StratifiedReservoir) (sig : Nat) : Bool :=
  match lookupA s.reservoirs sig with
  | none => false
  | some r =>
    decide (r.TraceCount ≠ 0) &&
      (match r.Slots.head? with
       | some (some _) => true
       | _ => false)

/-- Unpacking of `readyB`. -/
theorem readyB_inv (s : StratifiedReservoir) (sig : Nat)
    (h : readyB s sig = true) :
    ∃ r t, lookupA s.reservoirs sig = some r ∧ r.TraceCount ≠ 0
      ∧ r.Slots = some t :: r.Slots.tail := by
  unfold readyB at h
  split at h
  · cases h
  next r heq =>
    rw [Bool.and_eq_true] at h
    obtain ⟨hc, hs⟩ := h
    split at hs
    next t hhead =>
      refine ⟨r, t, heq, by simpa using hc, ?_⟩
      rcases hsl : r.Slots with _ | ⟨o, rest⟩
      · rw [hsl] at hhead; cases hhead
      · rw [hsl] at hhead
        simp only [List.head?_cons] at hhead
        obtain rfl := Option.some.inj hhead
        simp [hsl]
    · cases hs

/-- A system whose front bucket (signature 1, never flushed, no
reservoir) drains empty and is dormant, ahead of a non-empty stratum 2, at
wall-clock 100 with `maxNoFlushInterval` 30. -/
def sysDormantFront : SysState :=
  { strat := { reservoirs := [(2, readyReservoir 9)],
               size := 44, limit := 1024, shrinked := false },
    buckets := [{ Signature := 1, LastSuccessfulFlush := 0 },
                { Signature := 2, LastSuccessfulFlush := 0 }],
    dropped := [] }

/-- C5: REFUTED as stated — the walk does not always stop at the first
bucket whose drain is non-empty.  In `sysDormantFront`, stratum 2's drain
is non-empty, but the dormant empty bucket 1 ahead of it is removed first
and the walk terminates there (`list.Remove` nils the element's links,
ending the range loop): the tick emits nothing and bucket 2 is neither
drained nor spliced to the tail. -/
theorem flush_preempted_by_dormant_counterexample :
    readyB sysDormantFront.strat 2 = true
    ∧ (30 < 100 - (0 : Nat))
    ∧ (sysDormantFront.flush 100 30).1 = none
    ∧ ((sysDormantFront.flush 100 30).2.buckets.map FlushBucket.Signature) = [2] := by
  decide

/-- C5 (amended): the flush walk emits at most one trace per tick, and —
provided every empty bucket ahead of it in the walk order was flushed
within `maxNoFlushInterval` (a dormant empty bucket stops the walk with no
emission instead) — it stops at the first bucket whose drain is non-empty
and splices exactly that bucket to the tail; across a window of ticks in
which every listed stratum's drain is non-empty, the bucket list rotates,
so the emitting stratum at tick `i` (the single bucket stamped and spliced
to the tail) is the `i`-th of the initially listed pairwise-distinct
signatures: each stratum emits at most once before any stratum emits a
second time. -/
theorem flush_round_robin :
    (∀ (now itv : Nat) (strat : StratifiedReservoir) (pre post : List FlushBucket)
        (b : FlushBucket) (r : Reservoir),
        (∀ p ∈ pre, drainEmptyB strat p.Signature = true
          ∧ now - p.LastSuccessfulFlush ≤ itv) →
        lookupA strat.reservoirs b.Signature = some r →
        r.TraceCount ≠ 0 →
        flushWalk now itv strat (pre ++ b :: post)
          = (emitRes r b.Signature, (strat.GetAndReset b.Signature).2,
             pre ++ (post ++ [{ b with LastSuccessfulFlush := now }])))
    ∧ (∀ (itv M : Nat) (st : Nat → SysState) (now : Nat → Nat),
        (∀ i, i < M → (st (i + 1)).buckets = ((st i).flush (now i) itv).2.buckets) →
        (∀ i, i < M → ∀ bk ∈ (st i).buckets, readyB (st i).strat bk.Signature = true) →
        M ≤ (st 0).buckets.length →
        ∀ i, i < M →
          ((st i).buckets.map FlushBucket.Signature
             = ((st 0).buckets.map FlushBucket.Signature).rotate i)
          ∧ (((st i).flush (now i) itv).1.isSome = true)
          ∧ ((((st i).flush (now i) itv).2.buckets.getLast?.map FlushBucket.Signature)
              = ((st 0).buckets.map FlushBucket.Signature).get? i)) := by
  constructor
  · intro now itv strat pre post b r hpre hl hc
    rw [flushWalk_skip_empties now itv pre (b :: post) strat hpre,
        flushWalk_emit_head now itv strat b post r hl hc]
  · intro itv M st now hstep hready hM
    -- the bucket list rotates one position per emitting tick
    have hrot : ∀ i, i ≤ M →
        (st i).buckets.map FlushBucket.Signature
          = ((st 0).buckets.map FlushBucket.Signature).rotate i := by
      intro i
      induction i with
      | zero => intro _; simp
      | succ i ih =>
        intro hiM
        have hi : i < M := by omega
        have hprev := ih (by omega)
        have hlen : (st i).buckets ≠ [] := by
          intro hnil
          have := congrArg List.length hprev
          simp [hnil, List.length_rotate] at this
          omega
        rcases hb : (st i).buckets with _ | ⟨b, bs⟩
        · exact absurd hb hlen
        obtain ⟨r, t, hlk, hct, hslot⟩ := readyB_inv _ _
          (hready i hi b (by rw [hb]; exact List.mem_cons_self _ _))
        have hwalk := flushWalk_emit_head (now i) itv (st i).strat b bs r hlk hct
        have hbk : ((st i).flush (now i) itv).2.buckets
            = bs ++ [{ b with LastSuccessfulFlush := now i }] := by
          unfold SysState.flush
          rw [hb, hwalk]
        rw [hstep i hi, hbk]
        have hr1 : ((st 0).buckets.map FlushBucket.Signature).rotate (i + 1)
            = (((st 0).buckets.map FlushBucket.Signature).rotate i).rotate 1 := by
          rw [List.rotate_rotate]
        rw [hr1, ← hprev, hb, List.map_cons, List.map_append,
            show (1 : Nat) = 0 + 1 from rfl, List.rotate_cons_succ, List.rotate_zero]
        rfl
    intro i hi
    have hprev := hrot i (by omega)
    have hlen : (st i).buckets ≠ [] := by
      intro hnil
      have := congrArg List.length hprev
      simp [hnil, List.length_rotate] at this
      omega
    rcases hb : (st i).buckets with _ | ⟨b, bs⟩
    · exact absurd hb hlen
    obtain ⟨r, t, hlk, hct, hslot⟩ := readyB_inv _ _
      (hready i hi b (by rw [hb]; exact List.mem_cons_self _ _))
    have hwalk := flushWalk_emit_head (now i) itv (st i).strat b bs r hlk hct
    have hfl : ((st i).flush (now i) itv)
        = (emitRes r b.Signature,
           { st i with strat := ((st i).strat.GetAndReset b.Signature).2,
                       buckets := bs ++ [{ b with LastSuccessfulFlush := now i }] }) := by
      unfold SysState.flush
      rw [hb, hwalk]
    have hemit : (emitRes r b.Signature).isSome = true := by
      unfold emitRes
      rw [hslot]
      rfl
    have hlpos : i < ((st 0).buckets.map FlushBucket.Signature).length := by
      simpa using lt_of_lt_of_le hi hM
    have h0 : ((st 0).buckets.map FlushBucket.Signature).get? i = some b.Signature := by
      have hh : ((st i).buckets.map FlushBucket.Signature).get? 0 = some b.Signature := by
        rw [hb]; rfl
      rw [hprev, List.get?_rotate (by omega)] at hh
      rw [Nat.zero_add, Nat.mod_eq_of_lt hlpos] at hh
      exact hh
    refine ⟨hb ▸ hprev, ?_, ?_⟩
    · rw [hfl]
      exact hemit
    · rw [hfl]
      simp only [List.getLast?_concat, Option.map_some']
      exact h0.symm

/-- The ready two-stratum reservoir used by the round-robin witness. -/
def rrStrat : StratifiedReservoir :=
  { reservoirs := [(1, readyReservoir 7), (2, readyReservoir 8)],
    size := 88, limit := 1024, shrinked := false }

/-- Tick 0 of the round-robin witness run. -/
def rrSys0 : SysState :=
  { strat := rrStrat,
    buckets := [{ Signature := 1, LastSuccessfulFlush := 0 },
                { Signature := 2, LastSuccessfulFlush := 0 }],
    dropped := [] }

/-- Tick 1: the bucket list left by tick 0's flush, strata refilled. -/
def rrSys1 : SysState :=
  { strat := rrStrat, buckets := ((rrSys0.flush 5 30).2).buckets, dropped := [] }

/-- Tick 2: the state left by tick 1's flush. -/
def rrSys2 : SysState := ((rrSys1.flush 6 30).2)

/-- The witness run, as a function of the tick index. -/
def rrSt : Nat → SysState :=
  fun i => if i = 0 then rrSys0 else if i = 1 then rrSys1 else rrSys2

/-- Witness for C5: the walk equation at a concrete non-empty head, and
the round-robin conclusion at tick 1 of the concrete two-stratum run. -/
theorem flush_round_robin_witness :
    (flushWalk 5 30 sysDormant.strat
        ([] ++ { Signature := 1, LastSuccessfulFlush := 0 }
          :: [{ Signature := 2, LastSuccessfulFlush := 0 }])
      = (emitRes (readyReservoir 7) 1, (sysDormant.strat.GetAndReset 1).2,
         [] ++ ([{ Signature := 2, LastSuccessfulFlush := 0 }]
           ++ [{ Signature := 1, LastSuccessfulFlush := 5 }])))
    ∧ ((rrSt 1).buckets.map FlushBucket.Signature
        = ((rrSt 0).buckets.map FlushBucket.Signature).rotate 1)
    ∧ (((rrSt 1).flush ((fun i => if i = 0 then 5 else 6) 1) 30).1.isSome = true)
    ∧ ((((rrSt 1).flush ((fun i => if i = 0 then 5 else 6) 1) 30).2.buckets.getLast?.map
          FlushBucket.Signature)
        = ((rrSt 0).buckets.map FlushBucket.Signature).get? 1) := by
  refine ⟨?_, ?_⟩
  · exact flush_round_robin.1 5 30 sysDormant.strat []
      [{ Signature := 2, LastSuccessfulFlush := 0 }]
      { Signature := 1, LastSuccessfulFlush := 0 } (readyReservoir 7)
      (by intro p hp; exact absurd hp (List.not_mem_nil p)) (by decide) (by decide)
  · exact flush_round_robin.2 30 2 rrSt (fun i => if i = 0 then 5 else 6)
      (by intro i hi; interval_cases i <;> decide)
      (by intro i hi; interval_cases i <;> decide)
      (by decide) 1 (by decide)

/-! ## Claim C6 -/

/-- A system with two empty, long-dormant strata 1 and 2 ahead of a
non-empty stratum 3, at wall-clock 100 with `maxNoFlushInterval` 30. -/
def sysTwoDormant : SysState :=
  { strat := { reservoirs := [(1, newReservoir), (2, newReservoir), (3, readyReservoir 4)],
               size := 132, limit := 1024, shrinked := false },
    buckets := [{ Signature := 1, LastSuccessfulFlush := 0 },
                { Signature := 2, LastSuccessfulFlush := 0 },
                { Signature := 3, LastSuccessfulFlush := 0 }],
    dropped := [] }

/-- C6: REFUTED as stated — not every dormant bucket is removed within one
tick after its interval elapses.  Two concrete failures: in `sysDormant`
the dormant bucket 2 sits behind the non-empty bucket 1, the walk stops at
the emission, and bucket 2 and its reservoir survive the tick; in
`sysTwoDormant` the dormant bucket 2 sits behind the equally dormant
bucket 1, the walk removes bucket 1 and terminates (`list.Remove` nils the
element's links, ending the range loop), and bucket 2 and its reservoir
survive the tick even though bucket 2 lies before the first non-empty
bucket. -/
theorem dormant_bucket_not_removed_counterexample :
    ((30 < 100 - (0 : Nat))
      ∧ drainEmptyB sysDormant.strat 2 = true
      ∧ ((sysDormant.flush 100 30).2.buckets.map FlushBucket.Signature) = [2, 1]
      ∧ (lookupA (sysDormant.flush 100 30).2.strat.reservoirs 2).isSome = true)
    ∧ (drainEmptyB sysTwoDormant.strat 2 = true
      ∧ ((sysTwoDormant.flush 100 30).2.buckets.map FlushBucket.Signature) = [2, 3]
      ∧ (lookupA (sysTwoDormant.flush 100 30).2.strat.reservoirs 2).isSome = true) := by
  decide

/-- C6 (amended): a bucket that drains empty and whose last successful
flush lies more than `maxNoFlushInterval` in the past is removed — bucket
and reservoir — within one flush tick, provided every bucket ahead of it
in the walk order drains empty and was itself flushed within
`maxNoFlushInterval`: the walk stops at the first emission and also at the
first dormant removal, so at most one dormant bucket — the first one the
walk reaches — is reclaimed per tick, and nothing is emitted on such a
tick. -/
theorem dormant_first_in_walk_removed :
    ∀ (now itv : Nat) (pre post : List FlushBucket) (b : FlushBucket)
      (strat : StratifiedReservoir),
      (∀ p ∈ pre, drainEmptyB strat p.Signature = true
        ∧ now - p.LastSuccessfulFlush ≤ itv) →
      drainEmptyB strat b.Signature = true →
      itv < now - b.LastSuccessfulFlush →
      flushWalk now itv strat (pre ++ b :: post)
        = (none, strat.Remove b.Signature, pre ++ post)
      ∧ (b.Signature ∉ pre.map FlushBucket.Signature →
         b.Signature ∉ post.map FlushBucket.Signature →
         b.Signature ∉ ((flushWalk now itv strat (pre ++ b :: post)).2.2.map
            FlushBucket.Signature))
      ∧ lookupA ((flushWalk now itv strat (pre ++ b :: post)).2.1).reservoirs
          b.Signature = none := by
  intro now itv pre post b strat hpre hbe hdorm
  have hstop : flushWalk now itv strat (b :: post)
      = (none, strat.Remove b.Signature, post) := by
    rw [flushWalk, GetAndReset_empty strat b.Signature hbe]
    simp only
    rw [if_pos hdorm]
  have heq : flushWalk now itv strat (pre ++ b :: post)
      = (none, strat.Remove b.Signature, pre ++ post) := by
    rw [flushWalk_skip_empties now itv pre (b :: post) strat hpre, hstop]
  refine ⟨heq, ?_, ?_⟩
  · intro hnpre hnpost hmem
    rw [heq] at hmem
    simp only [List.map_append, List.mem_append] at hmem
    rcases hmem with hmem | hmem
    · exact hnpre hmem
    · exact hnpost hmem
  · rw [heq]
    unfold StratifiedReservoir.Remove
    simp [lookupA_eraseA_self]

/-- Witness for C6 (amended): with the dormant bucket 2 first in the walk,
one tick removes it together with its reservoir and emits nothing. -/
theorem dormant_first_in_walk_removed_witness :
    (flushWalk 100 30 sysDormant.strat
        ([] ++ { Signature := 2, LastSuccessfulFlush := 0 }
          :: [{ Signature := 1, LastSuccessfulFlush := 0 }])
      = (none, sysDormant.strat.Remove 2,
         [] ++ [{ Signature := 1, LastSuccessfulFlush := 0 }]))
    ∧ lookupA ((flushWalk 100 30 sysDormant.strat
        ([] ++ { Signature := 2, LastSuccessfulFlush := 0 }
          :: [{ Signature := 1, LastSuccessfulFlush := 0 }])).2.1).reservoirs 2
        = none := by
  have h := dormant_first_in_walk_removed 100 30 []
    [{ Signature := 1, LastSuccessfulFlush := 0 }]
    { Signature := 2, LastSuccessfulFlush := 0 } sysDormant.strat
    (by intro p hp; exact absurd hp (List.not_mem_nil p)) (by decide) (by decide)
  exact ⟨h.1, h.2.2⟩

/-! ## Claim C7 -/

/-- C7: REFUTED as stated — `res.limit` is not written to the emitted
root's metrics mapping: flushing `sysDormant` emits a trace whose root
metrics contain no `res.limit` entry; the boolean is recorded (as a
string) in the root's meta mapping instead. -/
theorem res_limit_not_a_metric_counterexample :
    ((sysDormant.flush 100 30).1.map
        (fun t => lookupA t.root.metrics (str "res.limit"))) = some none
    ∧ ((sysDormant.flush 100 30).1.map
        (fun t => lookupA t.root.meta (str "res.limit"))) = some (some (str "false")) := by
  decide

/-- C7 (amended): whenever the flush walk drains a non-empty reservoir
whose counter saw `n` traces, the emitted trace's root carries the metrics
`res.slots = 1`, `res.seen = n` and `res.rate = 1 / n` (integer division:
1 when `n = 1`, 0 when `n > 1`), and its meta mapping records `res.limit`
as the formatted boolean, equal to `"true"` exactly when the flushed
stratum is the signature-0 overflow stratum. -/
theorem flush_annotates_root :
    ∀ (now itv : Nat) (pre post : List FlushBucket) (b : FlushBucket)
      (strat : StratifiedReservoir) (r : Reservoir) (t : PTrace) (n : Nat),
      (∀ p ∈ pre, drainEmptyB strat p.Signature = true
        ∧ now - p.LastSuccessfulFlush ≤ itv) →
      lookupA strat.reservoirs b.Signature = some r →
      r.Slots = [some t] →
      r.TraceCount = n →
      n ≠ 0 →
      ∃ e, (flushWalk now itv strat (pre ++ b :: post)).1 = some e
        ∧ lookupA e.root.metrics (str "res.slots") = some 1
        ∧ lookupA e.root.metrics (str "res.seen") = some n
        ∧ lookupA e.root.metrics (str "res.rate") = some (1 / n)
        ∧ 1 / n = (if n = 1 then 1 else 0)
        ∧ lookupA e.root.meta (str "res.limit") = some (formatBool (b.Signature = 0))
        ∧ (lookupA e.root.meta (str "res.limit") = some (str "true") ↔ b.Signature = 0) := by
  intro now itv pre post b strat r t n hpre hl hslot hcount hn
  have hwalk := flushWalk_skip_empties now itv pre (b :: post) strat hpre
  have hemit := flushWalk_emit_head now itv strat b post r hl (hcount ▸ hn)
  refine ⟨annotateRoot t b.Signature 1 n, ?_, ?_, ?_, ?_, ?_, ?_, ?_⟩
  · rw [hwalk, hemit]
    unfold emitRes
    rw [hslot]
    simp [hslot, hcount]
  · unfold annotateRoot Span.SetMetric
    simp only
    rw [lookupA_setA_other _ _ _ _ (by decide), lookupA_setA_other _ _ _ _ (by decide),
        lookupA_setA_self]
  · unfold annotateRoot Span.SetMetric
    simp only
    rw [lookupA_setA_other _ _ _ _ (by decide), lookupA_setA_self]
  · unfold annotateRoot Span.SetMetric
    simp only
    rw [lookupA_setA_self]
  · rcases n with _ | _ | n
    · exact absurd rfl hn
    · rfl
    · rw [if_neg (by omega)]
      exact Nat.div_eq_of_lt (by omega)
  · unfold annotateRoot Span.SetMetric
    simp only
    rw [lookupA_setA_self]
  · unfold annotateRoot Span.SetMetric formatBool
    simp only
    rw [lookupA_setA_self]
    by_cases h0 : b.Signature = 0
    · simp [h0]
    · simp only [h0, if_neg h0, if_false]
      constructor
      · intro hf
        exact absurd (Option.some.inj hf) (by decide)
      · intro h
        exact h.elim

/-- Witness for C7 (amended): flushing a two-trace signature-0 stratum
yields `res.slots = 1`, `res.seen = 2`, `res.rate = 0` and
`res.limit = "true"`. -/
theorem flush_annotates_root_witness :
    ∃ e, (flushWalk 9 30
        { reservoirs := [(0, (readyReservoir 3).Add (generateTrace 5) |>.1)],
          size := 44, limit := 1024, shrinked := false }
        ([] ++ { Signature := 0, LastSuccessfulFlush := 0 } :: [])).1 = some e
      ∧ lookupA e.root.metrics (str "res.slots") = some 1
      ∧ lookupA e.root.metrics (str "res.seen") = some 2
      ∧ lookupA e.root.metrics (str "res.rate") = some (1 / 2)
      ∧ 1 / 2 = (if 2 = 1 then 1 else 0)
      ∧ lookupA e.root.meta (str "res.limit") = some (formatBool ((0 : Nat) = 0))
      ∧ (lookupA e.root.meta (str "res.limit") = some (str "true") ↔ (0 : Nat) = 0) :=
  flush_annotates_root 9 30 [] [] { Signature := 0, LastSuccessfulFlush := 0 }
    { reservoirs := [(0, (readyReservoir 3).Add (generateTrace 5) |>.1)],
      size := 44, limit := 1024, shrinked := false }
    ((readyReservoir 3).Add (generateTrace 5) |>.1) (generateTrace 5) 2
    (by intro p hp; cases hp) (by decide) (by decide) (by decide) (by decide)

/-! ## Claim C4 -/

/-- C4: the source sets the default byte limit `maxMemorySize` to
`1 * 1024` bytes although its own comment (and the spec) say 100 MB; the
constructed default limit is 1024, not 100·1024·1024.  (Recorded as a code
bug: the code contradicts its own comment.) -/
theorem default_limit_is_1024_not_100mb :
    NewStratifiedReservoir.limit = 1024
    ∧ maxMemorySize = 1024
    ∧ maxMemorySize ≠ 100 * 1024 * 1024 := by
  refine ⟨rfl, rfl, by decide⟩

/-! ## Claim C8 -/

/-- A span that is valid except for a negative duration. -/
def spanNegDur : Span :=
  { traceID := 1, spanID := 1, parentID := 0, service := str "a",
    name := str "a", resource := str "a", spanType := [],
    start := Year2000NanosecTS, duration := -1, meta := [], metrics := [] }

/-- The same span with duration 0. -/
def spanZeroDur : Span := { spanNegDur with duration := 0 }

/-- The same span with duration 5. -/
def spanOk5 : Span := { spanNegDur with duration := 5 }

/-- C8: REFUTED as stated — `Normalize` only rejects a duration equal to
zero; a span with duration −1 (all other fields valid) is accepted
unchanged, so accepted spans need not satisfy `duration > 0`. -/
theorem negative_duration_accepted_counterexample :
    Span.Normalize spanNegDur = some spanNegDur ∧ spanNegDur.duration < 0 := by
  exact ⟨by decide, by decide⟩

/-- C8 (amended): `Normalize` returns an error for every span whose
duration is 0, and every accepted span satisfies `duration ≠ 0` (not
`duration > 0`: negative durations pass). -/
theorem normalize_rejects_zero_duration :
    ∀ s : Span,
      (s.duration = 0 → s.Normalize = none)
      ∧ (∀ s', s.Normalize = some s' → s'.duration ≠ 0) := by
  intro s
  constructor
  · intro h
    unfold Span.Normalize
    split_ifs <;> rfl
  · intro s' h
    obtain ⟨-, -, -, -, -, -, -, -, -, c10, -, rfl⟩ := Normalize_some_inv s s' h
    simpa [normalizedSpan] using c10

/-- Witness for C8 (amended): the zero-duration span is rejected; the
accepted duration-5 span has non-zero duration. -/
theorem normalize_rejects_zero_duration_witness :
    Span.Normalize spanZeroDur = none ∧ spanOk5.duration ≠ 0 :=
  ⟨(normalize_rejects_zero_duration spanZeroDur).1 (by decide),
   (normalize_rejects_zero_duration spanOk5).2 spanOk5 (by decide)⟩

/-! ## Claim C10 -/

/-- A span of scenario S2 (only id, parent, service, type and timing are
relevant to the sublayer computation). -/
def mkS2Span (id pid : Nat) (svc typ : String) (st du : Int) : Span :=
  { traceID := 1, spanID := id, parentID := pid, service := str svc,
    name := [], resource := [], spanType := str typ, start := st,
    duration := du, meta := [], metrics := [] }

/-- The four-span trace of scenario S2. -/
def traceS2 : List Span :=
  [ mkS2Span 1 0 "web" "web" 0 100,
    mkS2Span 2 1 "db-server" "db" 10 20,
    mkS2Span 3 2 "pgsql" "db" 15 10,
    mkS2Span 4 1 "web" "template" 40 20 ]

/-- C10: REFUTED as stated — with the spec's literal active-span rule
(`S.start ≤ t < S.start + S.duration`, every covering span active), the
interval algorithm attributes 7 to service `db-server` on the S2 trace
(and 3 to `pgsql`, 87 to `web`), not the claimed 10. -/
theorem sublayers_literal_rule_counterexample :
    lookupA (ComputeSublayersSpec traceS2).1 (str "db-server") = some 7
    ∧ lookupA (ComputeSublayersSpec traceS2).1 (str "db-server") ≠ some 10 := by
  exact ⟨by decide, by decide⟩

/-- C10 (amended): with the active-span rule the repository's tests pin
down — a span is active at `t` iff it covers `t` and no direct child of it
covers `t` — the interval algorithm on the S2 trace yields exactly
`by_service: db-server = 10, pgsql = 10, web = 80`,
`by_type: db = 20, template = 20, web = 60`, and a span count of 4. -/
theorem sublayers_no_active_child_rule :
    (ComputeSublayersNoChild traceS2).1.map Prod.fst
      = [str "web", str "db-server", str "pgsql"]
    ∧ lookupA (ComputeSublayersNoChild traceS2).1 (str "web") = some 80
    ∧ lookupA (ComputeSublayersNoChild traceS2).1 (str "db-server") = some 10
    ∧ lookupA (ComputeSublayersNoChild traceS2).1 (str "pgsql") = some 10
    ∧ (ComputeSublayersNoChild traceS2).2.1.map Prod.fst
      = [str "web", str "db", str "template"]
    ∧ lookupA (ComputeSublayersNoChild traceS2).2.1 (str "web") = some 60
    ∧ lookupA (ComputeSublayersNoChild traceS2).2.1 (str "db") = some 20
    ∧ lookupA (ComputeSublayersNoChild traceS2).2.1 (str "template") = some 20
    ∧ (ComputeSublayersNoChild traceS2).2.2 = 4 := by
  refine ⟨by decide, by decide, by decide, by decide, by decide,
          by decide, by decide, by decide, by decide⟩

/-! ## Claim C9: idempotence of the normalizer

The crux is that `normMetricNameParse` is the identity on its own
outputs.  `pairOk p c` says that byte `c` may legitimately follow byte `p`
in an output: outputs never contain `_.`, `._` or `__`, so re-scanning
takes only the emitting branches. -/

/-- Byte `c` may follow byte `p` in a parser output. -/
def pairOk (p c : Char) : Prop :=
  isAlphaNum c = true ∨ (c = '.' ∧ p ≠ '_') ∨ (c = '_' ∧ p ≠ '.' ∧ p ≠ '_')

/-- On a chain-respecting suffix the scan loop is a plain copy. -/
theorem normLoop_id :
    ∀ (rest front : List Char) (last : Char),
      List.Chain' pairOk (last :: rest) →
      normLoop rest front last = front ++ last :: rest := by
  intro rest
  induction rest with
  | nil => intro front last _; rfl
  | cons c cs ih =>
    intro front last hch
    rw [List.chain'_cons] at hch
    obtain ⟨hpc, hch⟩ := hch
    rw [normLoop]
    rcases hpc with hA | ⟨rfl, hlast⟩ | ⟨rfl, hl1, hl2⟩
    · rw [if_pos hA, ih (front ++ [last]) c hch]
      simp
    · rw [if_neg (by decide), if_pos rfl, if_neg hlast,
          ih (front ++ [last]) '.' hch]
      simp
    · rw [if_neg (by decide), if_neg (by decide),
          if_neg (by simp [hl1, hl2]), ih (front ++ [last]) '_' hch]
      simp

/-- The scan loop maintains the adjacency invariant of its buffer. -/
theorem normLoop_chain :
    ∀ (rest front : List Char) (last : Char),
      List.Chain' pairOk (front ++ [last]) →
      List.Chain' pairOk (normLoop rest front last) := by
  intro rest
  induction rest with
  | nil => intro front last hch; exact hch
  | cons c cs ih =>
    intro front last hch
    have hsnoc : ∀ b : Char, pairOk last b →
        List.Chain' pairOk ((front ++ [last]) ++ [b]) := by
      intro b hb
      rw [List.chain'_append]
      refine ⟨hch, List.chain'_singleton b, ?_⟩
      intro x hx y hy
      rw [List.getLast?_concat] at hx
      simp only [List.head?_cons, Option.mem_def, Option.some.injEq] at hx hy
      rw [← hx, ← hy]
      exact hb
    rw [normLoop]
    by_cases hA : isAlphaNum c = true
    · rw [if_pos hA]
      exact ih (front ++ [last]) c (hsnoc c (Or.inl hA))
    rw [if_neg hA]
    by_cases hdot : c = '.'
    · rw [if_pos hdot]
      by_cases hu : last = '_'
      · rw [if_pos hu]
        refine ih front '.' ?_
        subst hu
        rw [List.chain'_append] at hch ⊢
        refine ⟨hch.1, List.chain'_singleton _, ?_⟩
        intro x hx y hy
        have hx' := hch.2.2 x hx '_' (by simp)
        simp only [List.head?_cons, Option.mem_def, Option.some.injEq] at hy
        rcases hx' with hA' | ⟨h1, -⟩ | ⟨-, h2, h3⟩
        · exact absurd hA' (by decide)
        · exact absurd h1 (by decide)
        · rw [← hy]
          exact Or.inr (Or.inl ⟨rfl, h3⟩)
      · rw [if_neg hu]
        exact ih (front ++ [last]) '.' (hsnoc '.' (Or.inr (Or.inl ⟨hdot ▸ rfl, hu⟩)))
    · rw [if_neg hdot]
      by_cases hskip : last = '.' ∨ last = '_'
      · rw [if_pos hskip]
        exact ih front last hch
      · rw [if_neg hskip]
        push_neg at hskip
        exact ih (front ++ [last]) '_'
          (hsnoc '_' (Or.inr (Or.inr ⟨rfl, hskip.1, hskip.2⟩)))

/-- With a non-empty buffer prefix, the scan loop never changes the first
emitted byte. -/
theorem normLoop_head_front :
    ∀ (rest front : List Char) (last a : Char) (fr : List Char),
      front = a :: fr →
      (normLoop rest front last).head? = some a := by
  intro rest
  induction rest with
  | nil =>
    intro front last a fr h
    subst h
    rfl
  | cons c cs ih =>
    intro front last a fr h
    rw [normLoop]
    by_cases hA : isAlphaNum c = true
    · rw [if_pos hA]
      exact ih (front ++ [last]) c a (fr ++ [last]) (by rw [h]; rfl)
    rw [if_neg hA]
    by_cases hdot : c = '.'
    · rw [if_pos hdot]
      by_cases hu : last = '_'
      · rw [if_pos hu]
        exact ih front '.' a fr h
      · rw [if_neg hu]
        exact ih (front ++ [last]) '.' a (fr ++ [last]) (by rw [h]; rfl)
    · rw [if_neg hdot]
      by_cases hskip : last = '.' ∨ last = '_'
      · rw [if_pos hskip]
        exact ih front last a fr h
      · rw [if_neg hskip]
        exact ih (front ++ [last]) '_' a (fr ++ [last]) (by rw [h]; rfl)

/-- Entered at an alphabetic byte with an empty prefix, the scan's first
output byte is that byte — in particular alphabetic. -/
theorem normLoop_head_alpha :
    ∀ (rest : List Char) (last : Char), isAlpha last = true →
      (normLoop rest [] last).head? = some last := by
  intro rest last hlast
  cases rest with
  | nil => rfl
  | cons c cs =>
    rw [normLoop]
    by_cases hA : isAlphaNum c = true
    · rw [if_pos hA]
      exact normLoop_head_front cs [last] c last [] rfl
    rw [if_neg hA]
    by_cases hdot : c = '.'
    · rw [if_pos hdot]
      have hu : ¬ last = '_' := by
        intro h
        rw [h] at hlast
        exact absurd hlast (by decide)
      rw [if_neg hu]
      exact normLoop_head_front cs [last] '.' last [] rfl
    · rw [if_neg hdot]
      have hskip : ¬ (last = '.' ∨ last = '_') := by
        rintro (h | h) <;> (rw [h] at hlast; exact absurd hlast (by decide))
      rw [if_neg hskip]
      exact normLoop_head_front cs [last] '_' last [] rfl

/-- The scan loop emits at most one byte per input byte. -/
theorem normLoop_length :
    ∀ (rest front : List Char) (last : Char),
      (normLoop rest front last).length ≤ front.length + 1 + rest.length := by
  intro rest
  induction rest with
  | nil => intro front last; simp [normLoop]
  | cons c cs ih =>
    intro front last
    rw [normLoop]
    by_cases hA : isAlphaNum c = true
    · rw [if_pos hA]
      have := ih (front ++ [last]) c
      simp only [List.length_append, List.length_cons, List.length_nil] at this ⊢
      omega
    rw [if_neg hA]
    by_cases hdot : c = '.'
    · rw [if_pos hdot]
      by_cases hu : last = '_'
      · rw [if_pos hu]
        have := ih front '.'
        simp only [List.length_cons] at this ⊢
        omega
      · rw [if_neg hu]
        have := ih (front ++ [last]) '.'
        simp only [List.length_append, List.length_cons, List.length_nil] at this ⊢
        omega
    · rw [if_neg hdot]
      by_cases hskip : last = '.' ∨ last = '_'
      · rw [if_pos hskip]
        have := ih front last
        simp only [List.length_cons] at this ⊢
        omega
      · rw [if_neg hskip]
        have := ih (front ++ [last]) '_'
        simp only [List.length_append, List.length_cons, List.length_nil] at this ⊢
        omega

/-- The scan's output is never empty. -/
theorem normLoop_ne_nil :
    ∀ (rest front : List Char) (last : Char), normLoop rest front last ≠ [] := by
  intro rest
  induction rest with
  | nil => intro front last; simp [normLoop]
  | cons c cs ih =>
    intro front last
    rw [normLoop]
    by_cases hA : isAlphaNum c = true
    · rw [if_pos hA]; exact ih _ _
    rw [if_neg hA]
    by_cases hdot : c = '.'
    · rw [if_pos hdot]
      by_cases hu : last = '_'
      · rw [if_pos hu]; exact ih _ _
      · rw [if_neg hu]; exact ih _ _
    · rw [if_neg hdot]
      by_cases hskip : last = '.' ∨ last = '_'
      · rw [if_pos hskip]; exact ih _ _
      · rw [if_neg hskip]; exact ih _ _

/-- Dropping the last element preserves the adjacency chain. -/
theorem chain'_dropLast {R : Char → Char → Prop} :
    ∀ l : List Char, List.Chain' R l → List.Chain' R l.dropLast := by
  intro l
  induction l with
  | nil => intro _; simp
  | cons a t ih =>
    intro hch
    cases t with
    | nil => simp
    | cons b u =>
      rw [List.chain'_cons] at hch
      have htail := ih hch.2
      have hdl : (a :: b :: u).dropLast = a :: (b :: u).dropLast := rfl
      rw [hdl, List.chain'_cons']
      refine ⟨?_, htail⟩
      intro y hy
      cases u with
      | nil => simp at hy
      | cons c v =>
        have : (b :: c :: v).dropLast = b :: (c :: v).dropLast := rfl
        rw [this, List.head?_cons] at hy
        simp only [Option.mem_def, Option.some.injEq] at hy
        rw [← hy]
        exact hch.1

/-- A stripped buffer is non-empty when its head is alphabetic. -/
theorem strip_ne_nil (l : List Char) (hne : l ≠ [])
    (hhead : ∀ a, l.head? = some a → isAlpha a = true) :
    stripTrailingUnderscore l ≠ [] := by
  unfold stripTrailingUnderscore
  split
  next hlast =>
    rcases l with _ | ⟨a, _ | ⟨b, t⟩⟩
    · exact absurd rfl hne
    · have ha := hhead a rfl
      simp only [List.getLast?_singleton, Option.some.injEq] at hlast
      rw [hlast] at ha
      exact absurd ha (by decide)
    · simp
  · exact hne

/-- Stripping preserves the head (when the result is non-empty). -/
theorem strip_head (l : List Char) (a : Char) (hh : l.head? = some a)
    (hne : stripTrailingUnderscore l ≠ []) :
    (stripTrailingUnderscore l).head? = some a := by
  unfold stripTrailingUnderscore at *
  split
  next =>
    split at hne
    · rcases l with _ | ⟨x, _ | ⟨y, t⟩⟩
      · cases hh
      · exact absurd rfl hne
      · simpa using hh
    · simp_all
  next h =>
    split at hne
    · simp_all
    · exact hh

/-- Stripping preserves the adjacency chain. -/
theorem strip_chain (l : List Char) (hch : List.Chain' pairOk l) :
    List.Chain' pairOk (stripTrailingUnderscore l) := by
  unfold stripTrailingUnderscore
  split
  · exact chain'_dropLast l hch
  · exact hch

/-- After the one strip, the last byte is not an underscore: the chain
invariant forbids `__`, so the byte before a final underscore is never
itself an underscore. -/
theorem strip_getLast_ne (l : List Char) (hch : List.Chain' pairOk l) :
    (stripTrailingUnderscore l).getLast? ≠ some '_' := by
  unfold stripTrailingUnderscore
  split
  next hlast =>
    intro hdrop
    have hne : l ≠ [] := by
      intro h
      rw [h] at hlast
      cases hlast
    have hdec : l.dropLast ++ [l.getLast hne] = l := List.dropLast_append_getLast hne
    have hg : l.getLast hne = '_' := by
      have := List.getLast?_eq_getLast l hne
      rw [hlast] at this
      exact (Option.some.inj this).symm
    rw [← hdec, hg] at hch
    rw [List.chain'_append] at hch
    have := hch.2.2 '_' hdrop '_' (by simp)
    rcases this with hA | ⟨h1, -⟩ | ⟨-, -, h3⟩
    · exact absurd hA (by decide)
    · exact absurd h1 (by decide)
    · exact absurd rfl h3
  next hlast => exact hlast

/-- Stripping never lengthens the buffer. -/
theorem strip_length (l : List Char) :
    (stripTrailingUnderscore l).length ≤ l.length := by
  unfold stripTrailingUnderscore
  split
  · simp [List.length_dropLast]
  · exact le_refl _

/-- The head of a non-trivial `dropWhile` fails the predicate. -/
theorem dropWhile_eq_cons_head :
    ∀ (l : List Char) (p : Char → Bool) (c : Char) (rest : List Char),
      l.dropWhile p = c :: rest → p c = false := by
  intro l
  induction l with
  | nil => intro p c rest h; cases h
  | cons a t ih =>
    intro p c rest h
    rw [List.dropWhile_cons] at h
    split at h
    · exact ih p c rest h
    next hpa =>
      obtain rfl := (List.cons.inj h).1
      simpa using hpa

/-- `dropWhile` never lengthens a list. -/
theorem dropWhile_length_le (l : List Char) (p : Char → Bool) :
    (l.dropWhile p).length ≤ l.length := by
  induction l with
  | nil => simp
  | cons a t ih =>
    rw [List.dropWhile_cons]
    split
    · exact le_trans ih (by simp)
    · exact le_refl _

/-- A parser output in full: non-empty, alphabetic head, chain-respecting,
no trailing underscore, within the length bound. -/
def GoodName (l : List Char) : Prop :=
  l ≠ [] ∧ (∀ a, l.head? = some a → isAlpha a = true)
  ∧ List.Chain' pairOk l
  ∧ l.getLast? ≠ some '_'
  ∧ l.length ≤ MaxNameLen

/-- Every successful parse yields a `GoodName`. -/
theorem parse_good (n out : List Char)
    (h : normMetricNameParse n = (out, true)) : GoodName out := by
  unfold normMetricNameParse at h
  split at h
  · exact absurd (Prod.mk.inj h).2 (by decide)
  next hcond =>
    push_neg at hcond
    split at h
    · exact absurd (Prod.mk.inj h).2 (by decide)
    next c rest heq =>
      obtain ⟨rfl, -⟩ := Prod.mk.inj h
      have hc : isAlpha c = true := by
        have := dropWhile_eq_cons_head n _ c rest heq
        simpa using this
      have hhead0 := normLoop_head_alpha rest c hc
      have hchain0 : List.Chain' pairOk (normLoop rest [] c) :=
        normLoop_chain rest [] c (by simp)
      have hne0 := normLoop_ne_nil rest [] c
      have hhead : ∀ a, (normLoop rest [] c).head? = some a → isAlpha a = true := by
        intro a ha
        rw [hhead0] at ha
        rw [← Option.some.inj ha]
        exact hc
      have hnes := strip_ne_nil _ hne0 hhead
      refine ⟨hnes, ?_, strip_chain _ hchain0, strip_getLast_ne _ hchain0, ?_⟩
      · intro a ha
        rw [strip_head _ c hhead0 hnes] at ha
        rw [← Option.some.inj ha]
        exact hc
      · have h1 := strip_length (normLoop rest [] c)
        have h2 := normLoop_length rest [] c
        have h3 : (c :: rest).length ≤ n.length := by
          rw [← heq]
          exact dropWhile_length_le n _
        simp only [List.length_cons, List.length_nil] at h2 h3
        omega

/-- The parser is the identity on every `GoodName`. -/
theorem good_parse_id (l : List Char) (hG : GoodName l) :
    normMetricNameParse l = (l, true) := by
  obtain ⟨hne, hhead, hchain, hlast, hlen⟩ := hG
  unfold normMetricNameParse
  rw [if_neg (by push_neg; exact ⟨hne, hlen⟩)]
  rcases hl : l with _ | ⟨a, t⟩
  · exact absurd hl hne
  have ha : isAlpha a = true := hhead a (by rw [hl]; rfl)
  have hdw : (a :: t).dropWhile (fun c => !(isAlpha c)) = a :: t := by
    rw [List.dropWhile_cons, if_neg (by simp [ha])]
  rw [hdw]
  show (stripTrailingUnderscore (normLoop t [] a), true) = (a :: t, true)
  rw [normLoop_id t [] a (hl ▸ hchain)]
  unfold stripTrailingUnderscore
  rw [if_neg (by rw [List.nil_append]; exact hl ▸ hlast)]
  rw [List.nil_append]

/-- The parser is idempotent on success. -/
theorem parse_idem (n out : List Char)
    (h : normMetricNameParse n = (out, true)) :
    normMetricNameParse out = (out, true) :=
  good_parse_id out (parse_good n out h)

/-- Dotted truncation is idempotent: a truncated key
`k[:n] ++ "..."` truncates to itself. -/
theorem truncDots_idem (n : Nat) (s : Str) :
    truncDots n (truncDots n s) = truncDots n s := by
  unfold truncDots
  by_cases h : n < s.length
  · rw [if_pos h]
    have h1 : (s.take n).length = n := by
      simp [List.length_take, Nat.min_eq_left (le_of_lt h)]
    have hlen : (s.take n ++ str "...").length = n + 3 := by
      simp [h1, str]
    rw [if_pos (by rw [hlen]; omega)]
    rw [List.take_append_eq_append_take, List.take_take, Nat.min_self, h1,
        Nat.sub_self, List.take_zero, List.append_nil]
  · rw [if_neg h, if_neg h]

/-- Plain truncation is idempotent. -/
theorem truncPlain_idem (n : Nat) (s : Str) :
    truncPlain n (truncPlain n s) = truncPlain n s := by
  unfold truncPlain
  by_cases h : n < s.length
  · rw [if_pos h]
    rw [if_neg (by simp [List.length_take, Nat.min_eq_left (le_of_lt h)])]
  · rw [if_neg h, if_neg h]

/-- Plain truncation to a positive bound keeps a string non-empty. -/
theorem truncPlain_ne_nil (n : Nat) (s : Str) (hs : s ≠ []) (hn : 0 < n) :
    truncPlain n s ≠ [] := by
  unfold truncPlain
  split
  · intro hcon
    have hsl : 0 < s.length := List.length_pos.mpr hs
    have hlen : (s.take n).length = 0 := by rw [hcon]; rfl
    rw [List.length_take] at hlen
    omega
  · exact hs

/-- One meta entry is a fixed point of its own normalization. -/
theorem normMetaEntry_idem (e : Str × Str) :
    normMetaEntry (normMetaEntry e) = normMetaEntry e := by
  unfold normMetaEntry
  simp [truncDots_idem]

/-- One metrics entry is a fixed point of its own normalization. -/
theorem normMetricsEntry_idem (e : Str × Nat) :
    normMetricsEntry (normMetricsEntry e) = normMetricsEntry e := by
  unfold normMetricsEntry
  simp [truncDots_idem]

theorem map_normMetaEntry_idem (l : List (Str × Str)) :
    (l.map normMetaEntry).map normMetaEntry = l.map normMetaEntry := by
  induction l with
  | nil => rfl
  | cons e t ih => simp [normMetaEntry_idem, ih]

theorem map_normMetricsEntry_idem (l : List (Str × Nat)) :
    (l.map normMetricsEntry).map normMetricsEntry = l.map normMetricsEntry := by
  induction l with
  | nil => rfl
  | cons e t ih => simp [normMetricsEntry_idem, ih]

/-- C9: `Normalize` is idempotent — a span accepted by `Normalize` is
accepted again, and the second run changes nothing: service, name,
resource, type, identifiers, start, duration, and the meta and metrics
mappings (truncated keys and values included) all stay as the first run
left them. -/
theorem normalize_idempotent :
    ∀ (s s' : Span), s.Normalize = some s' → s'.Normalize = some s' := by
  intro s s' h
  obtain ⟨c1, c2, c3, c4, c5, c6, c7, c8, c9, c10, c11, rfl⟩ :=
    Normalize_some_inv s s' h
  have hpair : normMetricNameParse s.name
      = ((normMetricNameParse s.name).1, true) := by
    rw [Prod.ext_iff]
    exact ⟨rfl, c5⟩
  have hGood := parse_good _ _ hpair
  have hidem := parse_idem _ _ hpair
  have hres := Normalize_eq_some (normalizedSpan s)
    (by simpa [normalizedSpan] using c1)
    (by simpa [normalizedSpan] using c2)
    (by simpa [normalizedSpan] using hGood.1)
    (by simp only [normalizedSpan]; exact not_lt.mpr hGood.2.2.2.2)
    (by simp only [normalizedSpan]; rw [hidem])
    (by simp only [normalizedSpan]
        exact truncPlain_ne_nil MaxResourceLen s.resource c6 (by decide))
    (by simpa [normalizedSpan] using c7)
    (by simpa [normalizedSpan] using c8)
    (by simpa [normalizedSpan] using c9)
    (by simpa [normalizedSpan] using c10)
    (by simpa [normalizedSpan] using c11)
  rw [hres]
  have hfix : normalizedSpan (normalizedSpan s) = normalizedSpan s := by
    unfold normalizedSpan
    simp [hidem, truncPlain_idem, normMetaEntry_idem, normMetricsEntry_idem]
  rw [hfix]

/-- A span whose name carries a trailing underscore: normalization strips
it; the result is a fixed point. -/
def spanTrailing : Span := { spanOk5 with name := str "ab_" }

/-- Witness for C9: normalizing the stripped-name span again returns it
unchanged. -/
theorem normalize_idempotent_witness :
    Span.Normalize { spanTrailing with name := str "ab" }
      = some { spanTrailing with name := str "ab" } :=
  normalize_idempotent spanTrailing { spanTrailing with name := str "ab" } (by decide)

end TraceAgent
